import Mathlib

/-!
Verification development for the co_waiter repository
(src/waiter.rs and src/token_waiter.rs), as a shallow embedding.

The blocking handoff (`Waiter`) is modelled as its stored slot
(`Option T`) together with an explicit trace of park outcomes delivered
by the scheduler; `wait_rsp` is the literal translation of the source
loop over that trace.  The token correlation layer (`TokenWaiter`) is
modelled as a memory of instances indexed by address, with the key field
a plain natural number and the usize arithmetic taken modulo 2^64.
-/

namespace CoWaiter

/-- Result of a blocking wait.  `ok v` models `Ok(v)`, `timedOut` models
`Err(ErrorKind::TimedOut)`, `canceled` models the
`trigger_cancel_panic` unwind, and `pending` means the waiter is still
blocked (the modelled trace of park outcomes ran out). -/
inductive WaitResult (T : Type) where
  | ok (v : T)
  | timedOut
  | canceled
  | pending
deriving DecidableEq

/-- One outcome of `self.blocker.park(timeout)` as seen by the loop in
`Waiter::wait_rsp`.  `wake stored` models `Ok(_)`: the blocker was
unparked; `stored = some v` means a concurrent `Waiter::set_rsp(v)` put
`v` into the slot before this wake was observed, `stored = none` is a
spurious wake.  `timeout` models `Err(ParkError::Timeout)` and
`canceled` models `Err(ParkError::Canceled)`. -/
inductive ParkEv (T : Type) where
  | wake (stored : Option T)
  | timeout
  | canceled
deriving DecidableEq

namespace Waiter

/-- Translation of `Waiter::set_rsp` (src/waiter.rs lines 21-26): the
slot is an `AtomicOption` and `swap` unconditionally stores the new
value, dropping whatever was there; the unpark side effect is carried by
the `ParkEv.wake` event of the trace. -/
def set_rsp (_rsp : Option T) (v : T) : Option T := some v

/-- Effect of one observed wake on the slot: if a concurrent
`set_rsp stored` happened, the slot now holds it, otherwise the slot is
unchanged (spurious wake). -/
def applyWake (rsp : Option T) (stored : Option T) : Option T :=
  match stored with
  | some v => set_rsp rsp v
  | none => rsp

/-- Translation of `Waiter::wait_rsp` (src/waiter.rs lines 28-48),
driven by the trace of park outcomes.  On a wake it does
`self.rsp.take(...)`: a stored value is consumed and returned as `Ok`,
an empty slot means a false wakeup and the loop parks again.  On
`ParkError::Timeout` it returns the `TimedOut` error without looking at
the slot; on `ParkError::Canceled` it unwinds. -/
def wait_rsp : Option T → List (ParkEv T) → WaitResult T × Option T
  | rsp, [] => (.pending, rsp)
  | rsp, .wake stored :: rest =>
    match applyWake rsp stored with
    | some v => (.ok v, none)
    | none => wait_rsp none rest
  | rsp, .timeout :: _ => (.timedOut, rsp)
  | rsp, .canceled :: _ => (.canceled, rsp)

/-- Park outcome annotated with elapsed wall-clock time: a wake that
arrives `elapsed` time units after the enclosing `park` call began, a
park that runs its full timeout, or cancellation. -/
inductive TParkEv (T : Type) where
  | wake (stored : Option T) (elapsed : Nat)
  | timeout
  | canceled
deriving DecidableEq

/-- Timed translation of `Waiter::wait_rsp`.  The source fixes
`let timeout = timeout.into()` once, before the loop, and every
iteration calls `self.blocker.park(timeout)` with that same unchanged
value; the third component records the timeout argument passed to each
successive `park` call, which is therefore always the original `d`.
The second component is the total elapsed time: a park that ends in
`Err(Timeout)` consumes the full `d`, a park that ends in a wake
consumes that wake's `elapsed`. -/
def wait_rsp_timed (d : Nat) : Option T → List (TParkEv T) → WaitResult T × Nat × List Nat
  | _, [] => (.pending, 0, [])
  | rsp, .wake stored t :: rest =>
    match applyWake rsp stored with
    | some v => (.ok v, t, [d])
    | none =>
      let r := wait_rsp_timed d none rest
      (r.1, t + r.2.1, d :: r.2.2)
  | _, .timeout :: _ => (.timedOut, d, [d])
  | _, .canceled :: _ => (.canceled, 0, [d])

end Waiter

/-! Token correlation layer (src/token_waiter.rs). -/

/-- Word modulus of the 64-bit usize arithmetic of the source. -/
def wordMod : Nat := 2 ^ 64

/-- State of one `TokenWaiter` instance: its atomic `key` field and the
slot of its inner `Waiter`. -/
structure TokenWaiterState (T : Type) where
  key : Nat
  rsp : Option T
deriving DecidableEq

/-- Memory of `TokenWaiter` instances, indexed by address.  `none`
means no live instance at that address (never allocated, or already
destroyed; `Drop` stores 0 into the key before the memory is
reclaimed, so a compare-and-swap against a genuine token can no longer
succeed there, and the model returns no match). -/
def World (T : Type) := Nat → Option (TokenWaiterState T)

namespace TokenWaiter

/-- Token computed by `get_id` (src/token_waiter.rs line 24):
`address << 3` in usize arithmetic. -/
def token (addr : Nat) : Nat := (addr <<< 3) % wordMod

/-- Translation of `TokenWaiter::get_id` (src/token_waiter.rs lines
22-27) for the pinned instance at address `addr`: compute
`id = address << 3`, store it into the key field, return it. -/
def get_id (addr : Nat) (s : TokenWaiterState T) : Nat × TokenWaiterState T :=
  (token addr, { s with key := token addr })

/-- Mask of `!1` on a 64-bit usize. -/
def notOne : Nat := wordMod - 2

/-- Translation of `key & !1`, the lock-bit clear used by
`TokenWaiter::set_rsp` (fetch_and) and by `Drop` (mask of the loaded
key). -/
def clearLock (k : Nat) : Nat := k &&& notOne

/-- Translation of `TokenWaiter::from_id` (src/token_waiter.rs lines
30-47): recover `address = id >> 3`, reject when `address & 3 != 0`,
otherwise dereference the address and compare-and-swap the key from
`id` to `id + 1`.  Returns the resolved address (the `Some(waiter)`
reference of the source) together with the updated memory. -/
def from_id (w : World T) (id : Nat) : Option Nat × World T :=
  let address := id >>> 3
  if address &&& 3 ≠ 0 then (none, w)
  else
    match w address with
    | none => (none, w)
    | some s =>
      if s.key = id then
        (some address, fun a => if a = address then some { s with key := id + 1 } else w a)
      else (none, w)

/-- Translation of `TokenWaiter::set_rsp` (src/token_waiter.rs lines
54-61): resolve the id via `from_id`; on success clear the key lock
bit (`fetch_and(!1)`) and store the response into the inner waiter
(`waiter.set_rsp`); on failure do nothing. -/
def set_rsp (w : World T) (id : Nat) (v : T) : World T :=
  match from_id w id with
  | (some address, w1) =>
    match w1 address with
    | some s =>
      fun a =>
        if a = address then some { key := clearLock s.key, rsp := Waiter.set_rsp s.rsp v }
        else w1 a
    | none => w1
  | (none, w1) => w1

/-- Protocol events acting on the key field of a single instance whose
issued token is `tok`: `issue` is the store in `get_id`, `resolveCAS`
the successful compare-and-swap of `from_id`, `completeClear` the
`fetch_and(!1)` of `set_rsp`, and `dropCAS` the compare-and-swap of
`Drop` (whose expected value is the loaded key with the lock bit
masked off, so it can only succeed while the key is unlocked). -/
inductive KeyEvent where
  | issue
  | resolveCAS
  | completeClear
  | dropCAS
deriving DecidableEq

/-- Effect of one protocol event on the current key value `k`: `some`
is the new key value when the operation takes effect, `none` means the
compare-and-swap failed (the operation retries or gives up without
writing). -/
def keyStep (tok k : Nat) : KeyEvent → Option Nat
  | .issue => some tok
  | .resolveCAS => if k = tok then some (tok + 1) else none
  | .completeClear => some (clearLock k)
  | .dropCAS => if clearLock k = k then some 0 else none

/-- Key values reachable from the initial `AtomicUsize::new(0)` under
any interleaving of the protocol events. -/
inductive KeyReach (tok : Nat) : Nat → Prop where
  | init : KeyReach tok 0
  | step {k k' : Nat} {e : KeyEvent} :
      KeyReach tok k → keyStep tok k e = some k' → KeyReach tok k'

end TokenWaiter

/-!
Interleaving model of a completion (`TokenWaiter::set_rsp`) racing a
destruction (`Drop`) of the same instance, for the use-after-free
property.  The completer program counter follows the source order of
`set_rsp`: the `from_id` compare-and-swap, then `fetch_and(!1)`, then
`waiter.set_rsp(rsp)` (which reads and writes the instance).  The
destroyer follows `Drop`: load the key and mask the lock bit, then
compare-and-swap that value to 0 in a spin loop; when its CAS succeeds
`Drop` returns and the memory is reclaimed (`alive := false`).
-/

/-- Program counter of the completing context inside
`TokenWaiter::set_rsp`. -/
inductive CPc where
  | tryLock
  | clearFlag
  | setValue
  | cdone
deriving DecidableEq

/-- Program counter of the destroying context inside `Drop`. -/
inductive DPc where
  | loadKey
  | casKey
  | ddone
deriving DecidableEq

/-- Joint state of the racing contexts: the shared key field, whether
the instance memory is still allocated, the two program counters, and
the expected key value loaded by the destroyer. -/
structure RaceState where
  key : Nat
  alive : Bool
  cpc : CPc
  dpc : DPc
  dexp : Nat
deriving DecidableEq

/-- One interleaved step of the completion/destruction race on an
instance whose issued token is `tok`.  `deliver` is the call
`waiter.waiter.set_rsp(rsp)`: it dereferences the instance, so the
model only offers it while the memory is alive; reaching `setValue`
with `alive = false` means the source would dereference reclaimed
memory there. -/
inductive RaceStep (tok : Nat) : RaceState → RaceState → Prop where
  | lockOk (s : RaceState) :
      s.cpc = .tryLock → s.key = tok →
      RaceStep tok s { s with key := tok + 1, cpc := .clearFlag }
  | lockFail (s : RaceState) :
      s.cpc = .tryLock → s.key ≠ tok →
      RaceStep tok s { s with cpc := .cdone }
  | clearFlag (s : RaceState) :
      s.cpc = .clearFlag →
      RaceStep tok s { s with key := TokenWaiter.clearLock s.key, cpc := .setValue }
  | deliver (s : RaceState) :
      s.cpc = .setValue → s.alive = true →
      RaceStep tok s { s with cpc := .cdone }
  | loadKey (s : RaceState) :
      s.dpc = .loadKey →
      RaceStep tok s { s with dexp := TokenWaiter.clearLock s.key, dpc := .casKey }
  | dropOk (s : RaceState) :
      s.dpc = .casKey → s.key = s.dexp →
      RaceStep tok s { s with key := 0, alive := false, dpc := .ddone }

/-- States reachable from the configuration where the key holds the
issued token, the memory is alive, the completer is about to run
`from_id` and the destroyer is entering `Drop`. -/
inductive RaceReach (tok : Nat) : RaceState → Prop where
  | init : RaceReach tok ⟨tok, true, .tryLock, .loadKey, 0⟩
  | step {s s' : RaceState} :
      RaceReach tok s → RaceStep tok s s' → RaceReach tok s'

/-- World holding a single instance at address 4 whose key is the
token 32, the forged token that recovers address 4; used by the C8
counterexample. -/
def w8cex : World Nat := fun a => if a = 4 then some ⟨32, none⟩ else none

/-- Fresh instance used by the C9 counterexample. -/
def s9 : TokenWaiterState Nat := ⟨0, none⟩

/-- World after issuing a token twice on the pinned instance at
address 8; used by the C9 counterexample. -/
def w9 : World Nat :=
  fun a =>
    if a = 8 then some (TokenWaiter.get_id 8 (TokenWaiter.get_id 8 s9).2).2 else none

/-- World holding a single live instance at address 8 whose issued
token is 64; used by the C3 counterexample. -/
def w3 : World Nat := fun a => if a = 8 then some ⟨64, none⟩ else none

namespace TokenWaiter

/-- Masking with `!1` clears exactly the low bit of a 64-bit key. -/
theorem clearLock_eq (k : Nat) (hk : k < 2 ^ 64) : clearLock k = 2 * (k / 2) := by
  apply Nat.eq_of_testBit_eq
  intro i
  rw [clearLock, Nat.testBit_and]
  cases i with
  | zero =>
    have h1 : Nat.testBit notOne 0 = false := by decide
    simp [h1, Nat.testBit_zero, Nat.mul_div_right, Nat.mul_mod_right]
  | succ i =>
    rw [Nat.testBit_add_one, Nat.testBit_add_one, Nat.testBit_add_one]
    have h2 : notOne / 2 = 2 ^ 63 - 1 := by decide
    rw [h2, Nat.testBit_two_pow_sub_one, Nat.mul_div_cancel_left _ (by decide : 0 < 2)]
    by_cases h : i < 63
    · simp [h]
    · have hk2 : k / 2 < 2 ^ 63 := by
        apply Nat.div_lt_of_lt_mul
        calc k < 2 ^ 64 := hk
        _ = 2 * 2 ^ 63 := by norm_num
      have h3 : Nat.testBit (k / 2) i = false := by
        apply Nat.testBit_lt_two_pow
        calc k / 2 < 2 ^ 63 := hk2
        _ ≤ 2 ^ i := Nat.pow_le_pow_right (by decide) (by omega)
      simp [h3]

/-- The issued token is eight times the address reduced modulo 2^61. -/
theorem token_eq (addr : Nat) : token addr = 8 * (addr % 2 ^ 61) := by
  rw [token, Nat.shiftLeft_eq, wordMod]
  have h1 : (2 : Nat) ^ 64 = 8 * 2 ^ 61 := by norm_num
  have h2 : addr * 2 ^ 3 = 8 * addr := by ring
  rw [h1, h2, Nat.mul_mod_mul_left]

/-- The issued token with the lock bit set still fits in 64 bits. -/
theorem token_lt (addr : Nat) : token addr + 1 < 2 ^ 64 := by
  rw [token_eq]
  have := Nat.mod_lt addr (y := 2 ^ 61) (by norm_num)
  omega

/-- The issued token has a clear lock bit. -/
theorem clearLock_token (addr : Nat) : clearLock (token addr) = token addr := by
  rw [clearLock_eq _ (by have := token_lt addr; omega), token_eq]
  omega

/-- Clearing the lock bit of a locked token recovers the token. -/
theorem clearLock_token_add_one (addr : Nat) :
    clearLock (token addr + 1) = token addr := by
  rw [clearLock_eq _ (token_lt addr), token_eq]
  omega

/-- Resolution fails and leaves the memory untouched when no live
instance at the recovered address has the key equal to the id. -/
theorem from_id_no_match (w : World T) (id : Nat)
    (h : ∀ s, w (id >>> 3) = some s → s.key ≠ id) :
    from_id w id = (none, w) := by
  unfold from_id
  by_cases ha : (id >>> 3) &&& 3 ≠ 0
  · simp [ha]
  · simp only [ha, if_false]
    cases hw : w (id >>> 3) with
    | none => simp
    | some s => simp [h s hw]

end TokenWaiter

/-- C1: the claim states that a completion winning the lease race runs
its value delivery on a not-yet-destroyed instance, destruction never
reclaiming memory while the completing context is still touching it.
The code violates this: `TokenWaiter::set_rsp` clears the key lock bit
before calling `waiter.set_rsp`, so the interleaved race below reaches
a state where the destroyer CAS has succeeded (drop returned, memory
reclaimed, `alive = false`) while the completer is still at the
`setValue` step, about to dereference the reclaimed instance. -/
theorem claim_C1_use_after_free :
    RaceReach 64 ⟨0, false, .setValue, .ddone, 64⟩ := by
  have h0 : RaceReach 64 ⟨64, true, .tryLock, .loadKey, 0⟩ := RaceReach.init
  have h1 : RaceReach 64 ⟨65, true, .clearFlag, .loadKey, 0⟩ :=
    RaceReach.step h0 (RaceStep.lockOk _ rfl rfl)
  have h2 : RaceReach 64 ⟨64, true, .setValue, .loadKey, 0⟩ :=
    RaceReach.step h1 (RaceStep.clearFlag _ rfl)
  have h3 : RaceReach 64 ⟨64, true, .setValue, .casKey, 64⟩ :=
    RaceReach.step h2 (RaceStep.loadKey _ rfl)
  exact RaceReach.step h3 (RaceStep.dropOk _ rfl rfl)

/-- C2: if a completion delivers `v` before the deadline (the wake
carrying the stored value is observed, possibly after spurious wakes),
`wait_rsp` returns `Ok(v)` with the slot consumed, and the value
received equals the value sent; moreover the value is delivered exactly
once: from an empty slot, a wait over any trace carrying no delivery
never returns `Ok`. -/
theorem claim_C2_roundtrip :
    (∀ (k : Nat) (v : T) (rest : List (ParkEv T)),
        Waiter.wait_rsp none (List.replicate k (.wake none) ++ .wake (some v) :: rest) =
          (.ok v, none)) ∧
    (∀ evs : List (ParkEv T), (∀ u : T, ParkEv.wake (some u) ∉ evs) →
        ∀ u : T, (Waiter.wait_rsp none evs).1 ≠ .ok u) := by
  constructor
  · intro k v rest
    induction k with
    | zero => simp [Waiter.wait_rsp, Waiter.applyWake, Waiter.set_rsp]
    | succ k ih =>
      rw [List.replicate_succ, List.cons_append]
      simpa [Waiter.wait_rsp, Waiter.applyWake] using ih
  · intro evs
    induction evs with
    | nil => intro _ u; simp [Waiter.wait_rsp]
    | cons e rest ih =>
      intro h u
      cases e with
      | wake stored =>
        cases stored with
        | some w => exact absurd (List.mem_cons_self _ _) (h w)
        | none =>
          have h2 : ∀ u : T, ParkEv.wake (some u) ∉ rest := by
            intro u2 hmem
            exact h u2 (List.mem_cons_of_mem _ hmem)
          simpa [Waiter.wait_rsp, Waiter.applyWake] using ih h2 u
      | timeout => simp [Waiter.wait_rsp]
      | canceled => simp [Waiter.wait_rsp]

/-- Witness for C2 at a concrete delivery-free trace. -/
theorem claim_C2_roundtrip_witness :
    (Waiter.wait_rsp (T := Nat) none [ParkEv.timeout]).1 ≠ .ok 5 :=
  claim_C2_roundtrip.2 [ParkEv.timeout] (by intro u h; simp at h) 5

/-- C3 counterexample: the claim states that a duplicate completion of
an already-completed token is a no-op.  On the live instance at
address 8 with issued token 64, a first completion delivers 10 and
restores the key to 64; the duplicate completion with the same token
then resolves again and delivers 20, changing the state. -/
theorem claim_C3_counterexample :
    TokenWaiter.set_rsp w3 64 10 8 = some ⟨64, some 10⟩ ∧
    TokenWaiter.set_rsp (TokenWaiter.set_rsp w3 64 10) 64 20 8 = some ⟨64, some 20⟩ := by
  constructor
  · decide
  · decide

/-- C3 amended: a completion is a no-op (memory unchanged, no value
delivered, no error) for every token with no currently-live instance
whose key equals the token: misaligned tokens, tokens never issued,
tokens of destroyed instances (key reset to 0), and tokens currently
locked by a concurrent resolution.  A duplicate completion of a
completed token whose instance is still live is not covered: the
lock-bit clear restored the key to the token, so it resolves again. -/
theorem claim_C3_stale_noop (w : World T) (id : Nat) (v : T)
    (h : ∀ s, w (id >>> 3) = some s → s.key ≠ id) :
    TokenWaiter.set_rsp w id v = w := by
  unfold TokenWaiter.set_rsp
  rw [TokenWaiter.from_id_no_match w id h]

/-- Witness for the amended C3 on an empty memory. -/
theorem claim_C3_stale_noop_witness :
    TokenWaiter.set_rsp (fun _ => none : World Nat) 0 5 = (fun _ => none) :=
  claim_C3_stale_noop _ _ _ (fun _ hs => Option.noConfusion hs)

/-- C4: starting from the unused key 0, under the protocol events
(issue by get_id, the from_id compare-and-swap with the issued token,
the lock-bit clear of set_rsp, the Drop compare-and-swap) the key only
ever holds 0, the issued token, or the token plus one, and every
effective transition follows the claimed state machine: issue writes
the token, a successful resolve moves token to token plus one, an
effective lock-bit clear moves token plus one back to token, and a
successful Drop compare-and-swap moves an unlocked key (0 or the
token) to 0. -/
theorem claim_C4_key_state_machine (addr tok : Nat) (htok : tok = TokenWaiter.token addr) :
    (∀ k, TokenWaiter.KeyReach tok k → k = 0 ∨ k = tok ∨ k = tok + 1) ∧
    (∀ k k', TokenWaiter.keyStep tok k .issue = some k' → k' = tok) ∧
    (∀ k k', TokenWaiter.keyStep tok k .resolveCAS = some k' →
        k = tok ∧ k' = tok + 1) ∧
    (∀ k k', TokenWaiter.KeyReach tok k →
        TokenWaiter.keyStep tok k .completeClear = some k' → k' ≠ k →
        k = tok + 1 ∧ k' = tok) ∧
    (∀ k k', TokenWaiter.KeyReach tok k →
        TokenWaiter.keyStep tok k .dropCAS = some k' →
        (k = 0 ∨ k = tok) ∧ k' = 0) := by
  have hc0 : TokenWaiter.clearLock 0 = 0 := by decide
  have hct : TokenWaiter.clearLock tok = tok := by
    rw [htok]; exact TokenWaiter.clearLock_token addr
  have hct1 : TokenWaiter.clearLock (tok + 1) = tok := by
    rw [htok]; exact TokenWaiter.clearLock_token_add_one addr
  have hinv : ∀ k, TokenWaiter.KeyReach tok k → k = 0 ∨ k = tok ∨ k = tok + 1 := by
    intro k hk
    induction hk with
    | init => left; rfl
    | @step k k' e hk hs ih =>
      cases e with
      | issue =>
        simp only [TokenWaiter.keyStep, Option.some.injEq] at hs
        right; left; omega
      | resolveCAS =>
        simp only [TokenWaiter.keyStep] at hs
        split at hs
        · simp only [Option.some.injEq] at hs
          right; right; omega
        · exact absurd hs (by simp)
      | completeClear =>
        simp only [TokenWaiter.keyStep, Option.some.injEq] at hs
        rcases ih with h0 | h1 | h2
        · left; rw [← hs, h0, hc0]
        · right; left; rw [← hs, h1, hct]
        · right; left; rw [← hs, h2, hct1]
      | dropCAS =>
        simp only [TokenWaiter.keyStep] at hs
        split at hs
        · simp only [Option.some.injEq] at hs
          left; omega
        · exact absurd hs (by simp)
  refine ⟨hinv, ?_, ?_, ?_, ?_⟩
  · intro k k' hs
    simp only [TokenWaiter.keyStep, Option.some.injEq] at hs
    omega
  · intro k k' hs
    simp only [TokenWaiter.keyStep] at hs
    split at hs
    · simp only [Option.some.injEq] at hs
      constructor
      · assumption
      · omega
    · exact absurd hs (by simp)
  · intro k k' hk hs hne
    simp only [TokenWaiter.keyStep, Option.some.injEq] at hs
    rcases hinv k hk with h0 | h1 | h2
    · exact absurd (by rw [← hs, h0, hc0]) hne
    · exact absurd (by rw [← hs, h1, hct]) hne
    · exact ⟨h2, by rw [← hs, h2, hct1]⟩
  · intro k k' hk hs
    simp only [TokenWaiter.keyStep] at hs
    split at hs
    · rename_i hcl
      simp only [Option.some.injEq] at hs
      refine ⟨?_, by omega⟩
      rcases hinv k hk with h0 | h1 | h2
      · left; exact h0
      · right; exact h1
      · rw [h2, hct1] at hcl; omega
    · exact absurd hs (by simp)

/-- Witness for C4 at the instance address 8. -/
theorem claim_C4_key_state_machine_witness :
    (0 : Nat) = 0 ∨ (0 : Nat) = TokenWaiter.token 8 ∨ (0 : Nat) = TokenWaiter.token 8 + 1 :=
  (claim_C4_key_state_machine 8 (TokenWaiter.token 8) rfl).1 0 TokenWaiter.KeyReach.init

/-- C5 counterexample: the claim states that across spurious wakes the
waiter re-applies the original timeout relative to elapsed time, so it
still times out once the original deadline is reached.  With the 100
unit timeout and a spurious wake 60 units in, the source passes the
unchanged value 100 to the second park call (not the remaining 40) and
only returns TimedOut after 160 units, past the original deadline. -/
theorem claim_C5_counterexample :
    Waiter.wait_rsp_timed 100 (none : Option Nat) [.wake none 60, .timeout] =
      (.timedOut, 160, [100, 100]) ∧ 60 ≤ 100 ∧ 100 < 160 := by
  refine ⟨?_, by norm_num, by norm_num⟩
  decide

/-- C5 amended: on every spurious wake the waiter blocks again passing
the original timeout value unchanged, so for a trace of spurious wakes
followed by a park that runs out, the wait returns TimedOut, every
park call received the original timeout, and the total elapsed time is
the sum of the spurious-wake delays plus one full timeout, which can
exceed the original deadline. -/
theorem claim_C5_full_timeout_retry (d : Nat) (ts : List Nat)
    (h : ∀ t ∈ ts, t ≤ d) :
    Waiter.wait_rsp_timed (T := T) d none
        (ts.map (fun t => .wake none t) ++ [.timeout]) =
      (.timedOut, ts.sum + d, List.replicate (ts.length + 1) d) := by
  induction ts with
  | nil => simp [Waiter.wait_rsp_timed]
  | cons t ts ih =>
    have h2 : ∀ u ∈ ts, u ≤ d := fun u hu => h u (List.mem_cons_of_mem _ hu)
    rw [List.map_cons, List.cons_append, Waiter.wait_rsp_timed]
    simp only [Waiter.applyWake]
    rw [ih h2]
    simp [List.replicate_succ]
    omega

/-- Witness for the amended C5 at timeout 100 with one spurious wake. -/
theorem claim_C5_full_timeout_retry_witness :
    Waiter.wait_rsp_timed (T := Nat) 100 none
        (([60] : List Nat).map (fun t => .wake none t) ++ [.timeout]) =
      (.timedOut, ([60] : List Nat).sum + 100,
        List.replicate (([60] : List Nat).length + 1) 100) :=
  claim_C5_full_timeout_retry 100 [60] (by decide)

/-- C6: when no value is delivered before the deadline (an empty slot
and a trace of spurious wakes ending in a park timeout), `wait_rsp`
returns the TimedOut error; and conversely it returns TimedOut only
when a park timeout occurred, so on the non-canceled paths the timeout
is the only error. -/
theorem claim_C6_timed_out :
    (∀ (k : Nat) (rest : List (ParkEv T)),
        Waiter.wait_rsp none (List.replicate k (.wake none) ++ .timeout :: rest) =
          (.timedOut, none)) ∧
    (∀ (rsp : Option T) (evs : List (ParkEv T)),
        (Waiter.wait_rsp rsp evs).1 = .timedOut → ParkEv.timeout ∈ evs) := by
  constructor
  · intro k rest
    induction k with
    | zero => simp [Waiter.wait_rsp]
    | succ k ih =>
      rw [List.replicate_succ, List.cons_append]
      simpa [Waiter.wait_rsp, Waiter.applyWake] using ih
  · intro rsp evs
    induction evs generalizing rsp with
    | nil => simp [Waiter.wait_rsp]
    | cons e rest ih =>
      cases e with
      | wake stored =>
        intro h
        rw [Waiter.wait_rsp] at h
        cases hm : Waiter.applyWake rsp stored with
        | some v => rw [hm] at h; simp at h
        | none =>
          rw [hm] at h
          exact List.mem_cons_of_mem _ (ih none h)
      | timeout => intro _; exact List.mem_cons_self _ _
      | canceled => intro h; rw [Waiter.wait_rsp] at h; simp at h

/-- Witness for C6 at a concrete timing-out trace. -/
theorem claim_C6_timed_out_witness :
    ParkEv.timeout ∈ ([ParkEv.timeout] : List (ParkEv Nat)) :=
  claim_C6_timed_out.2 none [ParkEv.timeout] rfl

/-- C7: for every pinned instance at address A, get_id computes the
token as A shifted left by three bits (in usize arithmetic, that is
modulo 2^64), stores that token into the key field of the instance,
and returns it, leaving the rest of the instance unchanged. -/
theorem claim_C7_get_id_token (addr : Nat) (s : TokenWaiterState T) :
    (TokenWaiter.get_id addr s).1 = (addr <<< 3) % wordMod ∧
    (TokenWaiter.get_id addr s).2.key = (addr <<< 3) % wordMod ∧
    (TokenWaiter.get_id addr s).2.rsp = s.rsp :=
  ⟨rfl, rfl, rfl⟩

/-- C8 counterexample: the token 32 recovers address 4, whose low three
bits are 4, nonzero, so by the claim from_id should reject it without
dereferencing; the source only tests `address & 3`, the check passes,
and the lookup dereferences the address and resolves. -/
theorem claim_C8_counterexample :
    (TokenWaiter.from_id w8cex 32).1 = some 4 ∧ (32 >>> 3) &&& 7 ≠ 0 := by
  constructor
  · decide
  · decide

/-- C8 amended: from_id computes the candidate address as the token
shifted right by three bits and rejects, without dereferencing,
whenever either of the two low bits of the recovered address is
nonzero (`address & 3 != 0`, divisibility by 4); the third reserved
bit of the address is not checked. -/
theorem claim_C8_alignment_reject (w : World T) (id : Nat)
    (h : (id >>> 3) &&& 3 ≠ 0) :
    TokenWaiter.from_id w id = (none, w) := by
  unfold TokenWaiter.from_id
  simp [h]

/-- Witness for the amended C8 at the token 8, which recovers the
misaligned address 1. -/
theorem claim_C8_alignment_reject_witness :
    TokenWaiter.from_id (T := Nat) (fun _ => none) 8 = (none, fun _ => none) :=
  claim_C8_alignment_reject _ 8 (by decide)

/-- C9 counterexample: the claim states that re-issuing invalidates the
earlier token.  Calling get_id a second time on the pinned instance at
address 8 returns the very same token as the first call, and a lookup
with the earlier token still resolves to the instance, so the earlier
token is not invalidated. -/
theorem claim_C9_counterexample :
    (TokenWaiter.get_id 8 (TokenWaiter.get_id 8 s9).2).1 = (TokenWaiter.get_id 8 s9).1 ∧
    (TokenWaiter.from_id w9 (TokenWaiter.get_id 8 s9).1).1 = some 8 := by
  constructor
  · decide
  · decide

/-- C9 amended: a second get_id on the same pinned instance returns
the same token as the first call and stores the same key, so the
earlier token remains valid: a lookup with the earlier token still
resolves to the instance. -/
theorem claim_C9_reissue_same_token (addr : Nat) (s : TokenWaiterState T) (w : World T)
    (h4 : addr % 4 = 0) (hlt : addr < 2 ^ 61) :
    (TokenWaiter.get_id addr (TokenWaiter.get_id addr s).2).1 = (TokenWaiter.get_id addr s).1 ∧
    (TokenWaiter.from_id
        (fun a =>
          if a = addr then some (TokenWaiter.get_id addr (TokenWaiter.get_id addr s).2).2
          else w a)
        (TokenWaiter.get_id addr s).1).1 = some addr := by
  refine ⟨rfl, ?_⟩
  have htok : TokenWaiter.token addr = 8 * addr := by
    rw [TokenWaiter.token_eq, Nat.mod_eq_of_lt hlt]
  have haddr : TokenWaiter.token addr >>> 3 = addr := by
    rw [htok, Nat.shiftRight_eq_div_pow]
    omega
  have halign : addr &&& 3 = 0 := by
    have h3 : (3 : Nat) = 2 ^ 2 - 1 := by norm_num
    rw [h3, Nat.and_pow_two_sub_one_eq_mod]
    omega
  unfold TokenWaiter.from_id
  simp [TokenWaiter.get_id, haddr, halign]

/-- Witness for the amended C9 at address 8. -/
theorem claim_C9_reissue_same_token_witness :
    (TokenWaiter.get_id 8 (TokenWaiter.get_id 8 s9).2).1 = (TokenWaiter.get_id 8 s9).1 ∧
    (TokenWaiter.from_id
        (fun a =>
          if a = 8 then some (TokenWaiter.get_id 8 (TokenWaiter.get_id 8 s9).2).2
          else (fun _ => none : World Nat) a)
        (TokenWaiter.get_id 8 s9).1).1 = some 8 :=
  claim_C9_reissue_same_token 8 s9 (fun _ => none) (by decide) (by decide)

/-- C10: a second Waiter set_rsp before the stored value is consumed
replaces the first value (the swap on the slot overwrites it), a
subsequent wait returns the second value, and the first value is
dropped, never delivered. -/
theorem claim_C10_second_set_replaces (s : Option T) (v1 v2 : T) (h : v1 ≠ v2) :
    Waiter.set_rsp (Waiter.set_rsp s v1) v2 = some v2 ∧
    Waiter.wait_rsp (Waiter.set_rsp (Waiter.set_rsp s v1) v2) [ParkEv.wake none] =
      (.ok v2, none) ∧
    (Waiter.wait_rsp (Waiter.set_rsp (Waiter.set_rsp s v1) v2) [ParkEv.wake none]).1 ≠
      .ok v1 := by
  refine ⟨rfl, rfl, ?_⟩
  simp [Waiter.wait_rsp, Waiter.applyWake, Waiter.set_rsp]
  exact fun hc => h hc.symm

/-- Witness for C10 with the values 1 then 2. -/
theorem claim_C10_second_set_replaces_witness :
    Waiter.set_rsp (Waiter.set_rsp (none : Option Nat) 1) 2 = some 2 ∧
    Waiter.wait_rsp (Waiter.set_rsp (Waiter.set_rsp (none : Option Nat) 1) 2)
        [ParkEv.wake none] = (.ok 2, none) ∧
    (Waiter.wait_rsp (Waiter.set_rsp (Waiter.set_rsp (none : Option Nat) 1) 2)
        [ParkEv.wake none]).1 ≠ .ok 1 :=
  claim_C10_second_set_replaces none 1 2 (by decide)

end CoWaiter
